import Mathlib

/-!
Verification of the ISPL2 insurance-policy retrieval system.

Shallow embedding of the system's operations:
the hybrid search engine, embedding quality validation and batch sizing
(`backend/docs/ISPL_SubTasks_Detailed_Report.md`), the pgvector database
schema (`backend/database/init_pgvector_indexes.sql`), and the chat hook
(`frontend` `useChat`).  Scores and vector components are modelled as
rationals; the nondeterministic inputs of the frontend (clock, id
generation, the backend HTTP call) are explicit parameters.
-/

/-- Chunk identity: the (policy id, chunk sequence index) pair that keys both
embedding tables (`policy_id`, `chunk_index` columns). -/
structure ChunkRef where
  policyId : Nat
  chunkIndex : Nat
deriving DecidableEq, Repr

/-- A search candidate as it comes back from a vector or keyword sub-query:
chunk identity plus the metadata needed downstream for citations. -/
structure Cand where
  ref : ChunkRef
  text : String
  page : Nat
  issuer : String
deriving DecidableEq, Repr

/-- A merged hybrid-search result: candidate with its vector score, keyword
score and combined score (`Search Result` of the data model). -/
structure Ranked where
  cand : Cand
  vectorScore : ℚ
  keywordScore : ℚ
  combinedScore : ℚ
deriving DecidableEq, Repr

/-- Score of a chunk in one sub-query result set; a chunk absent from the set
receives a zero for the missing score. -/
def scoreOf (l : List (Cand × ℚ)) (ref : ChunkRef) : ℚ :=
  match l.find? (fun p => p.1.ref == ref) with
  | some p => p.2
  | none => 0

/-- Keep the first occurrence of each chunk identity (merge by Chunk
identity). -/
def dedupByRef (l : List Cand) : List Cand :=
  l.foldl (fun acc c => if acc.any (fun d => d.ref == c.ref) then acc else acc ++ [c]) []

/-- Deterministic tie-break order on chunk identities: original document
identity first, then chunk sequence index. -/
def chunkRefLex (a b : ChunkRef) : Prop :=
  a.policyId < b.policyId ∨ (a.policyId = b.policyId ∧ a.chunkIndex ≤ b.chunkIndex)

/-- Ranking order of merged results: higher combined score first, ties broken
by `chunkRefLex`. -/
def rankedLE (a b : Ranked) : Prop :=
  b.combinedScore < a.combinedScore ∨
    (a.combinedScore = b.combinedScore ∧ chunkRefLex a.cand.ref b.cand.ref)

instance : DecidableRel chunkRefLex := fun a b => by unfold chunkRefLex; infer_instance

instance : DecidableRel rankedLE := fun a b => by unfold rankedLE; infer_instance

instance : IsTotal Ranked rankedLE where
  total a b := by
    unfold rankedLE chunkRefLex
    rcases lt_trichotomy a.combinedScore b.combinedScore with h | h | h
    · exact Or.inr (Or.inl h)
    · rcases lt_trichotomy a.cand.ref.policyId b.cand.ref.policyId with g | g | g
      · exact Or.inl (Or.inr ⟨h, Or.inl g⟩)
      · rcases Nat.le_total a.cand.ref.chunkIndex b.cand.ref.chunkIndex with c | c
        · exact Or.inl (Or.inr ⟨h, Or.inr ⟨g, c⟩⟩)
        · exact Or.inr (Or.inr ⟨h.symm, Or.inr ⟨g.symm, c⟩⟩)
      · exact Or.inr (Or.inr ⟨h.symm, Or.inl g⟩)
    · exact Or.inl (Or.inl h)

instance : IsTrans Ranked rankedLE where
  trans a b c hab hbc := by
    unfold rankedLE chunkRefLex at *
    rcases hab with h | ⟨he, hl⟩
    · rcases hbc with g | ⟨ge, _⟩
      · exact Or.inl (lt_trans g h)
      · exact Or.inl (ge ▸ h)
    · rcases hbc with g | ⟨ge, gl⟩
      · exact Or.inl (he ▸ g)
      · refine Or.inr ⟨he.trans ge, ?_⟩
        rcases hl with hp | ⟨hp, hi⟩
        · rcases gl with gp | ⟨gp, _⟩
          · exact Or.inl (lt_trans hp gp)
          · exact Or.inl (gp ▸ hp)
        · rcases gl with gp | ⟨gp, gi⟩
          · exact Or.inl (hp ▸ gp)
          · exact Or.inr ⟨hp.trans gp, le_trans hi gi⟩

/-- `AdvancedSearchEngine.similarity_threshold` (Task 5.2 snippet). -/
def similarity_threshold : ℚ := 7/10

/-- `AdvancedSearchEngine.hybrid_weight['vector']` (Task 5.2 snippet). -/
def hybrid_weight_vector : ℚ := 7/10

/-- `AdvancedSearchEngine.hybrid_weight['keyword']` (Task 5.2 snippet). -/
def hybrid_weight_keyword : ℚ := 3/10

/-- Embedding of `AdvancedSearchEngine._combine_scores`.  The method body is
not in the source; Modelled from the spec: merge the two result sets by Chunk
identity, a chunk missing from one set receives a zero for that score,
combined score is `w_v × vectorScore + w_k × keywordScore` with the engine's
weights, and the merged set is ordered by combined score descending with ties
broken by document identity then chunk sequence index. -/
def combine_scores (vr kr : List (Cand × ℚ)) : List Ranked :=
  let cands := dedupByRef (vr.map Prod.fst ++ kr.map Prod.fst)
  let scored := cands.map (fun c =>
    { cand := c
      vectorScore := scoreOf vr c.ref
      keywordScore := scoreOf kr c.ref
      combinedScore :=
        hybrid_weight_vector * scoreOf vr c.ref + hybrid_weight_keyword * scoreOf kr c.ref })
  List.insertionSort rankedLE scored

/-- Embedding of `AdvancedSearchEngine.hybrid_search` (Task 5.2 snippet):
issue the vector sub-query and the keyword sub-query each with `limit * 2`
candidates, combine their scores, truncate to `limit`.  The two sub-query
backends are parameters of the embedding. -/
def hybrid_search (vectorSearch : List ℚ → Nat → List (Cand × ℚ))
    (keywordSearch : List String → Nat → List (Cand × ℚ))
    (embedding : List ℚ) (keywords : List String) (limit : Nat) : List Ranked :=
  let vector_results := vectorSearch embedding (limit * 2)
  let keyword_results := keywordSearch keywords (limit * 2)
  let combined_results := combine_scores vector_results keyword_results
  combined_results.take limit

/-- One component of an embedding vector as delivered by the backend: a
finite value, or one of the IEEE special values NaN / +Inf / -Inf. -/
inductive FloatVal where
  | val (q : ℚ)
  | nan
  | inf
  | ninf
deriving DecidableEq, Repr

/-- Embedding of `np.isnan` on one component. -/
def isNaNF : FloatVal → Bool
  | .nan => true
  | _ => false

/-- Whether a component is infinite. -/
def isInfF : FloatVal → Bool
  | .inf => true
  | .ninf => true
  | _ => false

/-- Sum of squares of the finite components. -/
def sumSq (emb : List FloatVal) : ℚ :=
  emb.foldl (fun acc x => match x with | .val q => acc + q * q | _ => acc) 0

/-- `QualityEmbeddingAgent.quality_threshold` (Task 4.3 snippet): minimum
vector norm. -/
def quality_threshold : ℚ := 1/10

/-- Embedding of the comparison `np.linalg.norm(emb) > thr`.  A NaN component
makes the norm NaN, and any comparison with NaN is false; an infinite
component (without NaN) makes the norm +Inf, which exceeds any threshold;
otherwise the norm is the square root of the sum of squares, and since the
threshold is positive the comparison is done exactly on squares. -/
def norm_gt_threshold (emb : List FloatVal) (thr : ℚ) : Bool :=
  if emb.any isNaNF then false
  else if emb.any isInfF then true
  else decide (thr * thr < sumSq emb)

/-- Embedding of `QualityEmbeddingAgent._validate_embedding_quality` for one
vector (Task 4.3 snippet): `norm > self.quality_threshold and not
np.isnan(emb).any()`. -/
def validate_embedding_quality (emb : List FloatVal) : Bool :=
  norm_gt_threshold emb quality_threshold && !(emb.any isNaNF)

/-- Modelled from the spec: the persistence gate of the Embedding Router is
not in the sources; per the spec "an embedding must pass quality validation
... before being persisted", so of a batch exactly the vectors passing
`validate_embedding_quality` are persisted. -/
def persist_valid (embs : List (List FloatVal)) : List (List FloatVal) :=
  embs.filter validate_embedding_quality

/-- Embedding of `QualityEmbeddingAgent._adjust_batch_size` (Task 4.3
snippet): `if success_rate < 0.9 and self.batch_size > 10: self.batch_size =
max(10, self.batch_size // 2)`; no other branch changes the batch size. -/
def adjust_batch_size (success_rate : ℚ) (batch_size : Nat) : Nat :=
  if success_rate < 9/10 ∧ batch_size > 10 then max 10 (batch_size / 2) else batch_size

/-- Row of an embeddings table, per `database/init_pgvector_indexes.sql`:
`{policy_id, chunk_text, chunk_index, embedding, model}` (id and timestamp
columns are not relevant to the claims). -/
structure EmbRow where
  policy_id : Nat
  chunk_text : String
  chunk_index : Nat
  embedding : List ℚ
  model : String
deriving DecidableEq, Repr

/-- Row of the `policies` table (the columns the claims need). -/
structure PolicyRow where
  policy_id : Nat
  company : String
  product_name : String
  security_level : String
deriving DecidableEq, Repr

/-- The database state: `policies` plus the two embedding partitions of
`init_pgvector_indexes.sql`. -/
structure DB where
  policies : List PolicyRow
  embeddings_text_embedding_3 : List EmbRow
  embeddings_qwen : List EmbRow
deriving DecidableEq, Repr

/-- The freshly initialized database. -/
def emptyDB : DB := ⟨[], [], []⟩

/-- Deleting a policy.  Both embedding tables declare
`REFERENCES policies(policy_id) ON DELETE CASCADE`, so deleting a policy row
removes every embedding row referencing it from both partitions. -/
def delete_policy (db : DB) (pid : Nat) : DB :=
  { policies := db.policies.filter (fun p => p.policy_id != pid)
    embeddings_text_embedding_3 :=
      db.embeddings_text_embedding_3.filter (fun r => r.policy_id != pid)
    embeddings_qwen := db.embeddings_qwen.filter (fun r => r.policy_id != pid) }

/-- Ranking order for raw sub-query rows: higher score first. -/
def rowScoreLE (a b : EmbRow × ℚ) : Prop := b.2 ≤ a.2

instance : DecidableRel rowScoreLE := fun a b => by unfold rowScoreLE; infer_instance

instance : IsTotal (EmbRow × ℚ) rowScoreLE where
  total a b := by unfold rowScoreLE; exact le_total b.2 a.2

instance : IsTrans (EmbRow × ℚ) rowScoreLE where
  trans a b c hab hbc := by unfold rowScoreLE at *; exact le_trans hbc hab

/-- Vector similarity query over one partition: score every row of the
partition against the query vector, rank by score, take the top `k`.  The
similarity metric (cosine, per the spec) is a parameter of the embedding. -/
def vector_query (score : List ℚ → List ℚ → ℚ) (table : List EmbRow)
    (q : List ℚ) (k : Nat) : List (EmbRow × ℚ) :=
  (List.insertionSort rowScoreLE (table.map (fun r => (r, score q r.embedding)))).take k

/-- Whether `needle` occurs at the head of `hay`. -/
def leadingMatch : List Char → List Char → Bool
  | [], _ => true
  | _ :: _, [] => false
  | c :: cs, d :: ds => c == d && leadingMatch cs ds

/-- Whether `needle` occurs anywhere in `hay`. -/
def containsChars (needle : List Char) : List Char → Bool
  | [] => needle.isEmpty
  | c :: rest => leadingMatch needle (c :: rest) || containsChars needle rest

/-- Substring containment on strings (exact term matching). -/
def strContains (hay needle : String) : Bool := containsChars needle.data hay.data

/-- Keyword (full-text) search over one partition.  Modelled from the spec:
the lexical index is the `chunk_text` column of the same tables (PostgreSQL
full-text search; the schema has no separate keyword table); rows matching at
least one query term are ranked by a relevance score — here the number of
matching terms, standing in for "term frequency weighted by inverse document
frequency, or equivalent" — and the top `k` are returned. -/
def keyword_search (table : List EmbRow) (terms : List String) (k : Nat) :
    List (EmbRow × ℚ) :=
  (List.insertionSort rowScoreLE
    ((table.filter (fun r => terms.any (fun t => strContains r.chunk_text t))).map
      (fun r => (r, (terms.countP (fun t => strContains r.chunk_text t) : ℚ))))).take k

/-- `model_config` of `MultiModelEmbeddingAgent.__init__` (Task 4.1 snippet):
security level to embedding model; a missing key raises `KeyError`. -/
def model_config (security_level : String) : Option String :=
  if security_level = "public" then some "text-embedding-3-large"
  else if security_level = "restricted" then some "azure-text-embedding"
  else if security_level = "closed" then some "qwen3-8b-embed"
  else none

/-- `table_map` of `MultiModelEmbeddingAgent.get_embedding_table` (Task 4.1
snippet): embedding model to storage partition; a missing key raises
`KeyError`. -/
def get_embedding_table (model : String) : Option String :=
  if model = "text-embedding-3-large" then some "embeddings_text_embedding_3"
  else if model = "qwen3-8b-embed" then some "embeddings_qwen"
  else none

/-- Declared dimensionality of each model's partition, from the schema:
`VECTOR(3072)` for `embeddings_text_embedding_3` and `VECTOR(4096)` for
`embeddings_qwen`. -/
def tier_policy_dim (model : String) : Option Nat :=
  if model = "text-embedding-3-large" then some 3072
  else if model = "qwen3-8b-embed" then some 4096
  else none

/-- Persisting one embedding record: the partition is chosen by
`get_embedding_table`, and the partition's `VECTOR(n)` column type rejects a
vector whose dimensionality is not the declared one (the insert fails,
returning `none`). -/
def insert_embedding (db : DB) (model : String) (pid cidx : Nat)
    (text : String) (vec : List ℚ) : Option DB :=
  if get_embedding_table model = some "embeddings_text_embedding_3" then
    if vec.length = 3072 then
      some { db with embeddings_text_embedding_3 :=
        ⟨pid, text, cidx, vec, model⟩ :: db.embeddings_text_embedding_3 }
    else none
  else if get_embedding_table model = some "embeddings_qwen" then
    if vec.length = 4096 then
      some { db with embeddings_qwen :=
        ⟨pid, text, cidx, vec, model⟩ :: db.embeddings_qwen }
    else none
  else none

/-- Database states reachable through the system's write operations: policy
creation, embedding persistence, policy deletion. -/
inductive Reachable : DB → Prop where
  | init : Reachable emptyDB
  | addPolicy (db : DB) (p : PolicyRow) : Reachable db →
      Reachable { db with policies := p :: db.policies }
  | insert (db db' : DB) (model : String) (pid cidx : Nat) (text : String)
      (vec : List ℚ) : Reachable db →
      insert_embedding db model pid cidx text vec = some db' → Reachable db'
  | delete (db : DB) (pid : Nat) : Reachable db → Reachable (delete_policy db pid)

/-- A reranked search result (`SearchResultProcessor`, Task 5.3 snippet): the
candidate, its hybrid combined score, the cross-encoder relevance score, and
the optional extended context attached by the context-merge step. -/
structure RRes where
  cand : Cand
  combinedScore : ℚ
  crossScore : ℚ
  extendedContext : Option String
deriving DecidableEq, Repr

/-- `SearchResultProcessor.diversity_threshold` (Task 5.3 snippet). -/
def diversity_threshold : ℚ := 4/5

/-- Rerank order: higher cross-encoder score first. -/
def crossLE (a b : RRes) : Prop := b.crossScore ≤ a.crossScore

instance : DecidableRel crossLE := fun a b => by unfold crossLE; infer_instance

instance : IsTotal RRes crossLE where
  total a b := by unfold crossLE; exact le_total b.crossScore a.crossScore

instance : IsTrans RRes crossLE where
  trans a b c hab hbc := by unfold crossLE at *; exact le_trans hbc hab

/-- Step 1 of `SearchResultProcessor.process_results`: cross-encoder
reranking.  The method body is not in the source; Modelled from the spec:
each (query, chunk) pair is scored by the pairwise relevance function — a
parameter of the embedding — and this score supersedes the combined score for
ordering. -/
def cross_encoder_rerank (cross : String → String → ℚ) (query : String)
    (results : List Ranked) : List RRes :=
  List.insertionSort crossLE (results.map (fun r =>
    { cand := r.cand, combinedScore := r.combinedScore,
      crossScore := cross query r.cand.text, extendedContext := none }))

/-- Greedy dissimilar selection shared by the deduplication and diversity
steps, Modelled from the spec: walk the ranked candidates in order, skip a
candidate whose source-text similarity to an already kept candidate exceeds
the threshold, and stop once `limit` results are kept (no limit for the
deduplication pass). -/
def select_dissimilar (sim : String → String → ℚ) (thr : ℚ) (limit : Option Nat) :
    List RRes → List RRes → List RRes
  | [], kept => kept.reverse
  | c :: rest, kept =>
    if (match limit with | some k => decide (k ≤ kept.length) | none => false) then
      kept.reverse
    else if kept.any (fun s => thr < sim c.cand.text s.cand.text) then
      select_dissimilar sim thr limit rest kept
    else
      select_dissimilar sim thr limit rest (c :: kept)

/-- Step 2 of `process_results`: near-identical chunks collapse to the
highest-scoring instance (the list is already sorted by cross score, so the
greedy pass keeps the first, highest-scoring one). -/
def remove_duplicates (sim : String → String → ℚ) (dupThr : ℚ)
    (l : List RRes) : List RRes :=
  select_dissimilar sim dupThr none l []

/-- Whether two results hold adjacent chunks of the same document. -/
def adjacentB (a b : RRes) : Bool :=
  a.cand.ref.policyId == b.cand.ref.policyId &&
    (a.cand.ref.chunkIndex + 1 == b.cand.ref.chunkIndex ||
      b.cand.ref.chunkIndex + 1 == a.cand.ref.chunkIndex)

/-- Step 3 of `process_results` (`_merge_context`, Task 5.3 snippet): for
each result the adjacent surviving chunks are found and their combined text
is attached as `extended_context`; the result's own source text is not
altered. -/
def merge_context (l : List RRes) : List RRes :=
  l.map (fun r =>
    match (l.filter (fun o => adjacentB r o)).map (fun o => o.cand.text) with
    | [] => r
    | ts => { r with
        extendedContext := some (String.intercalate " " (r.cand.text :: ts)) })

/-- Step 4 of `process_results`: diversity enforcement with the processor's
`diversity_threshold`, filling at most `k` results. -/
def ensure_diversity (sim : String → String → ℚ) (k : Nat) (l : List RRes) :
    List RRes :=
  select_dissimilar sim diversity_threshold (some k) l []

/-- Embedding of `SearchResultProcessor.process_results` (Task 5.3 snippet):
cross-encoder rerank, then deduplication, then context merge, then diversity
enforcement. -/
def process_results (cross sim : String → String → ℚ) (dupThr : ℚ) (k : Nat)
    (query : String) (raw : List Ranked) : List RRes :=
  ensure_diversity sim k (merge_context (remove_duplicates sim dupThr
    (cross_encoder_rerank cross query raw)))

/-- A citation: document identity, issuer, page and position, and the chunk
text it was built from. -/
structure Citation where
  documentId : Nat
  issuer : String
  page : Nat
  position : Nat
  chunkText : String
deriving DecidableEq, Repr

/-- A context passage handed to the answer generator: passage text paired
with its citation. -/
structure ContextPassage where
  text : String
  citation : Citation
deriving DecidableEq, Repr

/-- The passage text of a result: its extended context when the context-merge
step attached one, otherwise its own chunk text. -/
def passage_text (r : RRes) : String :=
  match r.extendedContext with
  | some t => t
  | none => r.cand.text

/-- Modelled from the spec: the Retrieval Orchestrator "formats each
surviving Search Result into a citation (Document identity, issuer,
page/position, chunk text) paired with the passage text". -/
def format_citation (r : RRes) : ContextPassage :=
  { text := passage_text r
    citation := { documentId := r.cand.ref.policyId, issuer := r.cand.issuer,
                  page := r.cand.page, position := r.cand.ref.chunkIndex,
                  chunkText := r.cand.text } }

/-- Modelled from the spec: `retrieve` sequences query processing and query
embedding (parameters here), the Hybrid Search Engine and the Reranker, and
pairs every surviving result with its citation. -/
def retrieve (vectorSearch : List ℚ → Nat → List (Cand × ℚ))
    (keywordSearch : List String → Nat → List (Cand × ℚ))
    (cross sim : String → String → ℚ) (dupThr : ℚ) (k : Nat)
    (embedding : List ℚ) (keywords : List String) (query : String)
    (limit : Nat) : List ContextPassage :=
  (process_results cross sim dupThr k query
    (hybrid_search vectorSearch keywordSearch embedding keywords limit)).map
    format_citation

namespace Chat

/-- Frontend `SearchResult` (`frontend/src/types/api.ts`); `page_number` is
optional there. -/
structure SearchResult where
  policy_id : Nat
  policy_name : String
  company : String
  relevance_score : ℚ
  matched_text : String
  page_number : Option Nat
deriving DecidableEq, Repr

/-- Frontend `SearchRequest` (`frontend/src/types/api.ts`). -/
structure SearchRequest where
  query : String
  policy_ids : Option (List Nat)
  limit : Nat
deriving DecidableEq, Repr

/-- Frontend `SearchResponse` (`frontend/src/types/api.ts`). -/
structure SearchResponse where
  answer : String
  results : List SearchResult
deriving DecidableEq, Repr

/-- Message role of `ChatMessage.type`. -/
inductive MsgType where
  | user
  | assistant
  | system
deriving DecidableEq, Repr

/-- Frontend `ChatMessage`; ids are modelled as naturals (`generateId` is
opaque to the claims) and timestamps as naturals. -/
structure ChatMessage where
  id : Nat
  type : MsgType
  content : String
  timestamp : Nat
  searchResults : Option (List SearchResult)
  processingTime : Option Nat
  confidence : Option ℚ
  sources : Option (List String)
deriving DecidableEq, Repr

/-- Frontend `ChatSession`. -/
structure ChatSession where
  id : Nat
  title : String
  messages : List ChatMessage
  created_at : Nat
  updated_at : Nat
deriving DecidableEq, Repr

/-- The `useChat` hook state tracked by the claims: `currentSession`,
`sessions`, `isLoading`, `error`. -/
structure ChatState where
  currentSession : Option ChatSession
  sessions : List ChatSession
  isLoading : Bool
  error : Option String
deriving DecidableEq, Repr

/-- JavaScript `String.prototype.trim`: strip whitespace from both ends. -/
def jsTrim (s : String) : String :=
  String.mk (((s.data.dropWhile Char.isWhitespace).reverse.dropWhile
    Char.isWhitespace).reverse)

/-- The session title computed by `sendMessage`:
`query.length > 50 ? query.substring(0, 50) + '...' : query`. -/
def sessionTitle (query : String) : String :=
  if 50 < query.data.length then String.mk (query.data.take 50) ++ "..." else query

/-- JavaScript `array.slice(-n)`: the last `n` elements (`slice(-0)` is the
whole array). -/
def sliceLast (n : Nat) (l : List ChatMessage) : List ChatMessage :=
  if n = 0 then l else l.drop (l.length - n)

/-- Embedding of `useChat.sendMessage`
(`frontend/src/components/policies/PolicyManagement.tsx`, second document):
guard on a blank query or a send already in flight, create a session when
none is current, append the user message (capped at `maxMessages`), issue the
search request, append the assistant message built from the response, update
the session list, clear `isLoading`.  The backend call `apiService.search` is
the parameter `api` (the rejected-promise path is not modelled); the clock,
the processing time and the generated ids are parameters.  Returns the new
state together with the list of search requests issued. -/
def sendMessage (maxMessages : Nat) (api : SearchRequest → SearchResponse)
    (now procTime sessionId userMsgId assistantMsgId : Nat)
    (st : ChatState) (query : String) (policyIds : Option (List Nat)) :
    ChatState × List SearchRequest :=
  if jsTrim query = "" ∨ st.isLoading = true then (st, [])
  else
    let session : ChatSession :=
      match st.currentSession with
      | some s => s
      | none => { id := sessionId, title := sessionTitle query, messages := [],
                  created_at := now, updated_at := now }
    let userMessage : ChatMessage :=
      { id := userMsgId, type := .user, content := query, timestamp := now,
        searchResults := none, processingTime := none, confidence := none,
        sources := none }
    let limitedMessages := sliceLast maxMessages (session.messages ++ [userMessage])
    let updatedSession : ChatSession :=
      { session with
        messages := limitedMessages
        updated_at := now
        title := if session.messages.length = 0 then sessionTitle query
                 else session.title }
    let searchRequest : SearchRequest :=
      { query := query, policy_ids := policyIds, limit := 10 }
    let searchResponse := api searchRequest
    let assistantMessage : ChatMessage :=
      { id := assistantMsgId, type := .assistant,
        content := searchResponse.answer, timestamp := now,
        searchResults := some searchResponse.results,
        processingTime := some procTime,
        confidence := some (match searchResponse.results with
          | [] => 0
          | r :: _ => r.relevance_score)
        sources := some (searchResponse.results.map
          (fun r => r.company ++ " - " ++ r.policy_name)) }
    let finalMessages := limitedMessages ++ [assistantMessage]
    let finalSession : ChatSession :=
      { updatedSession with messages := finalMessages, updated_at := now }
    let newSessions :=
      if st.sessions.any (fun s => s.id == finalSession.id) then
        st.sessions.map (fun s => if s.id == finalSession.id then finalSession else s)
      else finalSession :: st.sessions
    ({ currentSession := some finalSession, sessions := newSessions,
       isLoading := false, error := none }, [searchRequest])

end Chat

theorem mem_combine_scores {vr kr : List (Cand × ℚ)} {r : Ranked}
    (h : r ∈ combine_scores vr kr) :
    r.vectorScore = scoreOf vr r.cand.ref ∧
    r.keywordScore = scoreOf kr r.cand.ref ∧
    r.combinedScore
      = hybrid_weight_vector * r.vectorScore + hybrid_weight_keyword * r.keywordScore := by
  unfold combine_scores at h
  rw [List.mem_insertionSort] at h
  obtain ⟨c, -, rfl⟩ := List.mem_map.mp h
  exact ⟨rfl, rfl, rfl⟩

/-- Claim C1: for every query, tier and limit, the hybrid search requests
2 × limit candidates from each of the vector search and the keyword search,
merges the two result sets by chunk identity assigning a zero for a score
missing from one set, computes each merged candidate's combined score as
w_v × vectorScore + w_k × keywordScore with the default weights
w_v = 0.7 and w_k = 0.3, and returns at most limit results. -/
theorem hybrid_search_spec (vs : List ℚ → Nat → List (Cand × ℚ))
    (ks : List String → Nat → List (Cand × ℚ))
    (e : List ℚ) (kw : List String) (limit : Nat) :
    hybrid_search vs ks e kw limit
      = (combine_scores (vs e (limit * 2)) (ks kw (limit * 2))).take limit ∧
    (hybrid_search vs ks e kw limit).length ≤ limit ∧
    hybrid_weight_vector = 7/10 ∧ hybrid_weight_keyword = 3/10 ∧
    ∀ r ∈ hybrid_search vs ks e kw limit,
      r.vectorScore = scoreOf (vs e (limit * 2)) r.cand.ref ∧
      r.keywordScore = scoreOf (ks kw (limit * 2)) r.cand.ref ∧
      r.combinedScore
        = hybrid_weight_vector * r.vectorScore + hybrid_weight_keyword * r.keywordScore := by
  have h1 : hybrid_search vs ks e kw limit
      = (combine_scores (vs e (limit * 2)) (ks kw (limit * 2))).take limit := rfl
  refine ⟨h1, ?_, rfl, rfl, ?_⟩
  · rw [h1, List.length_take]
    exact Nat.min_le_left _ _
  · intro r hr
    rw [h1] at hr
    exact mem_combine_scores ((List.take_sublist _ _).subset hr)

/-- Claim C5: hybrid search is deterministic — two runs on the same inputs
against unchanged index state return the same ordered result list — and ties
in combined score are broken first by original document identity and then by
chunk sequence index. -/
theorem hybrid_search_deterministic (vs : List ℚ → Nat → List (Cand × ℚ))
    (ks : List String → Nat → List (Cand × ℚ))
    (e : List ℚ) (kw : List String) (limit : Nat) :
    hybrid_search vs ks e kw limit = hybrid_search vs ks e kw limit ∧
    List.Pairwise (fun a b : Ranked =>
      b.combinedScore < a.combinedScore ∨
        (a.combinedScore = b.combinedScore ∧
          (a.cand.ref.policyId < b.cand.ref.policyId ∨
            (a.cand.ref.policyId = b.cand.ref.policyId ∧
              a.cand.ref.chunkIndex ≤ b.cand.ref.chunkIndex))))
      (hybrid_search vs ks e kw limit) := by
  refine ⟨rfl, ?_⟩
  have hs : List.Sorted rankedLE
      (combine_scores (vs e (limit * 2)) (ks kw (limit * 2))) := by
    unfold combine_scores
    exact List.sorted_insertionSort rankedLE _
  have h1 : hybrid_search vs ks e kw limit
      = (combine_scores (vs e (limit * 2)) (ks kw (limit * 2))).take limit := rfl
  rw [h1]
  exact (hs.sublist (List.take_sublist _ _)).imp (fun h => h)

/-- A concrete candidate used to instantiate the theorems. -/
def candA : Cand := ⟨⟨1, 0⟩, "chunk a", 3, "issuerA"⟩

/-- A concrete vector backend returning one scored candidate. -/
def vs0 : List ℚ → Nat → List (Cand × ℚ) := fun _ _ => [(candA, 0)]

/-- A concrete keyword backend returning nothing. -/
def ks0 : List String → Nat → List (Cand × ℚ) := fun _ _ => []

/-- The merged result `hybrid_search` produces from `vs0` and `ks0`. -/
def r0 : Ranked :=
  { cand := candA, vectorScore := 0, keywordScore := 0,
    combinedScore := hybrid_weight_vector * 0 + hybrid_weight_keyword * 0 }

theorem hybrid_search_fixture_eval : hybrid_search vs0 ks0 [] [] 1 = [r0] := rfl

/-- Witness for C1: the single merged result of a concrete engine state
carries the zero-filled keyword score and the weighted combined score. -/
theorem hybrid_search_spec_witness :
    r0 ∈ hybrid_search vs0 ks0 [] [] 1 ∧
    r0.vectorScore = scoreOf (vs0 [] (1 * 2)) r0.cand.ref ∧
    r0.keywordScore = scoreOf (ks0 [] (1 * 2)) r0.cand.ref ∧
    r0.combinedScore
      = hybrid_weight_vector * r0.vectorScore + hybrid_weight_keyword * r0.keywordScore := by
  have hmem : r0 ∈ hybrid_search vs0 ks0 [] [] 1 := by
    rw [hybrid_search_fixture_eval]
    exact List.mem_singleton.mpr rfl
  exact ⟨hmem, (hybrid_search_spec vs0 ks0 [] [] 1).2.2.2.2 r0 hmem⟩

/-- Counterexample for C3: a vector whose only component is +Inf contains an
undefined component, yet `_validate_embedding_quality` — which checks only
`np.isnan` — accepts it (its norm is +Inf, which exceeds the threshold), and
it is persisted. -/
theorem validate_embedding_inf_persisted :
    validate_embedding_quality [FloatVal.inf] = true ∧
    persist_valid [[FloatVal.inf]] = [[FloatVal.inf]] := ⟨rfl, rfl⟩

/-- Claim C3 (amended): an embedding is persisted only if it passes quality
validation; validation fails for every vector with a NaN component and for
every finite vector whose norm is at or below the minimum-norm threshold;
but a vector containing an Inf component (and no NaN) passes validation,
since the code checks only for NaN. -/
theorem validate_embedding_quality_spec :
    (∀ embs v, v ∈ persist_valid embs → validate_embedding_quality v = true) ∧
    (∀ emb, emb.any isNaNF = true → validate_embedding_quality emb = false) ∧
    (∀ emb, emb.any isNaNF = false → emb.any isInfF = false →
      sumSq emb ≤ quality_threshold * quality_threshold →
      validate_embedding_quality emb = false) ∧
    (∀ emb, emb.any isNaNF = false → emb.any isInfF = true →
      validate_embedding_quality emb = true) := by
  refine ⟨?_, ?_, ?_, ?_⟩
  · intro embs v hv
    exact (List.mem_filter.mp hv).2
  · intro emb h
    unfold validate_embedding_quality
    rw [h]
    simp
  · intro emb h1 h2 h3
    have hn : ¬ (quality_threshold * quality_threshold < sumSq emb) := not_lt.mpr h3
    unfold validate_embedding_quality norm_gt_threshold
    rw [h1, h2]
    simp [hn]
  · intro emb h1 h2
    unfold validate_embedding_quality norm_gt_threshold
    rw [h1, h2]
    simp

/-- Witness for C3 (amended): a vector with a NaN component fails
validation. -/
theorem validate_embedding_quality_spec_witness :
    validate_embedding_quality [FloatVal.nan] = false :=
  validate_embedding_quality_spec.2.1 [FloatVal.nan] rfl

/-- Counterexample for C4: under a 100% success rate the batch size never
grows — it stays at 50 (below any larger configured maximum) and stays at
the floor 10 — so there is no growth back toward the configured maximum. -/
theorem adjust_batch_size_no_growth :
    adjust_batch_size 1 50 = 50 ∧ adjust_batch_size 1 10 = 10 := by
  have h : ¬ ((1:ℚ) < 9/10) := by norm_num
  constructor <;>
    · unfold adjust_batch_size
      rw [if_neg (fun hc => h hc.1)]

/-- Claim C4 (amended): whenever the observed success rate drops below 90%
and the batch size exceeds the floor 10, the batch size is halved (floored at
10); a batch size starting at or above 10 never falls below 10; and the batch
size never increases — the code has no growth branch, so it does not grow
back toward the configured maximum on sustained success. -/
theorem adjust_batch_size_spec (sr : ℚ) (b : Nat) :
    (sr < 9/10 → 10 < b → adjust_batch_size sr b = max 10 (b / 2)) ∧
    adjust_batch_size sr b ≤ b ∧
    (10 ≤ b → 10 ≤ adjust_batch_size sr b) := by
  refine ⟨fun h1 h2 => ?_, ?_, fun h => ?_⟩
  · unfold adjust_batch_size
    rw [if_pos ⟨h1, h2⟩]
  · unfold adjust_batch_size
    by_cases hc : sr < 9/10 ∧ b > 10
    · rw [if_pos hc]
      exact max_le (le_of_lt hc.2) (Nat.div_le_self b 2)
    · rw [if_neg hc]
  · unfold adjust_batch_size
    by_cases hc : sr < 9/10 ∧ b > 10
    · rw [if_pos hc]
      exact le_max_left 10 _
    · rw [if_neg hc]
      exact h

theorem zero_lt_nine_tenths : (0:ℚ) < 9/10 := by norm_num

/-- Witness for C4 (amended): at success rate 0 a batch of 40 is halved to
`max 10 (40 / 2)`. -/
theorem adjust_batch_size_spec_witness :
    adjust_batch_size 0 40 = max 10 (40 / 2) :=
  (adjust_batch_size_spec 0 40).1 zero_lt_nine_tenths (by decide)

theorem mem_vector_query {score : List ℚ → List ℚ → ℚ} {table : List EmbRow}
    {q : List ℚ} {k : Nat} {p : EmbRow × ℚ}
    (h : p ∈ vector_query score table q k) : p.1 ∈ table := by
  unfold vector_query at h
  have h2 := (List.take_sublist _ _).subset h
  rw [List.mem_insertionSort] at h2
  obtain ⟨r, hr, rfl⟩ := List.mem_map.mp h2
  exact hr

theorem mem_keyword_search {table : List EmbRow} {terms : List String}
    {k : Nat} {p : EmbRow × ℚ}
    (h : p ∈ keyword_search table terms k) : p.1 ∈ table := by
  unfold keyword_search at h
  have h2 := (List.take_sublist _ _).subset h
  rw [List.mem_insertionSort] at h2
  obtain ⟨r, hr, rfl⟩ := List.mem_map.mp h2
  exact List.mem_of_mem_filter hr

theorem mem_deleted_te3_ne {db : DB} {pid : Nat} {r : EmbRow}
    (h : r ∈ (delete_policy db pid).embeddings_text_embedding_3) :
    r.policy_id ≠ pid := by
  simp only [delete_policy] at h
  simpa using (List.mem_filter.mp h).2

theorem mem_deleted_qwen_ne {db : DB} {pid : Nat} {r : EmbRow}
    (h : r ∈ (delete_policy db pid).embeddings_qwen) :
    r.policy_id ≠ pid := by
  simp only [delete_policy] at h
  simpa using (List.mem_filter.mp h).2

/-- Claim C2: after `delete(documentId)` completes, re-querying either index
— the vector similarity query or the keyword search, over either partition —
returns no row belonging to the deleted document: the `ON DELETE CASCADE`
constraints remove every derived embedding row, and the lexical index is the
`chunk_text` column of the same rows. -/
theorem delete_policy_no_orphans (score : List ℚ → List ℚ → ℚ) (db : DB)
    (pid : Nat) (q : List ℚ) (k : Nat) (terms : List String) :
    (∀ p ∈ vector_query score
        (delete_policy db pid).embeddings_text_embedding_3 q k,
      p.1.policy_id ≠ pid) ∧
    (∀ p ∈ vector_query score (delete_policy db pid).embeddings_qwen q k,
      p.1.policy_id ≠ pid) ∧
    (∀ p ∈ keyword_search
        (delete_policy db pid).embeddings_text_embedding_3 terms k,
      p.1.policy_id ≠ pid) ∧
    (∀ p ∈ keyword_search (delete_policy db pid).embeddings_qwen terms k,
      p.1.policy_id ≠ pid) := by
  refine ⟨fun p hp => ?_, fun p hp => ?_, fun p hp => ?_, fun p hp => ?_⟩
  · exact mem_deleted_te3_ne (mem_vector_query hp)
  · exact mem_deleted_qwen_ne (mem_vector_query hp)
  · exact mem_deleted_te3_ne (mem_keyword_search hp)
  · exact mem_deleted_qwen_ne (mem_keyword_search hp)

/-- A concrete surviving row of another document. -/
def rowB : EmbRow := ⟨2, "b text", 0, [], "text-embedding-3-large"⟩

/-- A concrete database containing only `rowB`. -/
def db1 : DB := ⟨[], [rowB], []⟩

/-- A trivial similarity metric for the fixtures. -/
def score0 : List ℚ → List ℚ → ℚ := fun _ _ => 0

theorem vector_query_fixture_eval :
    vector_query score0 (delete_policy db1 1).embeddings_text_embedding_3 [] 1
      = [(rowB, score0 [] rowB.embedding)] := rfl

/-- Witness for C2: after deleting policy 1 from a concrete database, the
row returned by the vector query belongs to policy 2, not to the deleted
policy. -/
theorem delete_policy_no_orphans_witness :
    (rowB, score0 [] rowB.embedding)
      ∈ vector_query score0 (delete_policy db1 1).embeddings_text_embedding_3 [] 1 ∧
    rowB.policy_id ≠ 1 := by
  have hmem : (rowB, score0 [] rowB.embedding)
      ∈ vector_query score0 (delete_policy db1 1).embeddings_text_embedding_3 [] 1 := by
    rw [vector_query_fixture_eval]
    exact List.mem_singleton.mpr rfl
  exact ⟨hmem, (delete_policy_no_orphans score0 db1 1 [] 1 []).1 _ hmem⟩

theorem get_embedding_table_te3_inv {model : String}
    (h : get_embedding_table model = some "embeddings_text_embedding_3") :
    model = "text-embedding-3-large" := by
  unfold get_embedding_table at h
  split_ifs at h with h1 h2
  · exact h1
  · exact absurd (Option.some.inj h) (by decide)

theorem get_embedding_table_qwen_inv {model : String}
    (h : get_embedding_table model = some "embeddings_qwen") :
    model = "qwen3-8b-embed" := by
  unfold get_embedding_table at h
  split_ifs at h with h1 h2
  · exact absurd (Option.some.inj h) (by decide)
  · exact h2

/-- Claim C6: in every reachable database state, each persisted embedding
record resides in its model's partition with the dimensionality the tier
policy declares for that model — 3072 for every record of the
text-embedding-3 partition and 4096 for every record of the Qwen
partition. -/
theorem embedding_dimensionality_invariant (db : DB) (h : Reachable db) :
    (∀ r ∈ db.embeddings_text_embedding_3,
      r.model = "text-embedding-3-large" ∧ r.embedding.length = 3072 ∧
      tier_policy_dim r.model = some r.embedding.length) ∧
    (∀ r ∈ db.embeddings_qwen,
      r.model = "qwen3-8b-embed" ∧ r.embedding.length = 4096 ∧
      tier_policy_dim r.model = some r.embedding.length) := by
  induction h with
  | init =>
    exact ⟨fun r hr => absurd hr (List.not_mem_nil r),
           fun r hr => absurd hr (List.not_mem_nil r)⟩
  | addPolicy db p hdb ih => exact ih
  | insert db db' model pid cidx text vec hdb hins ih =>
    unfold insert_embedding at hins
    split_ifs at hins with hg1 hd1 hg2 hd2
    · cases Option.some.inj hins
      have hm := get_embedding_table_te3_inv hg1
      subst hm
      refine ⟨?_, ih.2⟩
      intro r hr
      rcases List.mem_cons.mp hr with rfl | hr2
      · refine ⟨rfl, hd1, ?_⟩
        show tier_policy_dim "text-embedding-3-large" = some vec.length
        rw [hd1]
        decide
      · exact ih.1 r hr2
    · cases Option.some.inj hins
      have hm := get_embedding_table_qwen_inv hg2
      subst hm
      refine ⟨ih.1, ?_⟩
      intro r hr
      rcases List.mem_cons.mp hr with rfl | hr2
      · refine ⟨rfl, hd2, ?_⟩
        show tier_policy_dim "qwen3-8b-embed" = some vec.length
        rw [hd2]
        decide
      · exact ih.2 r hr2
  | delete db pid hdb ih =>
    refine ⟨fun r hr => ?_, fun r hr => ?_⟩
    · simp only [delete_policy] at hr
      exact ih.1 r (List.mem_of_mem_filter hr)
    · simp only [delete_policy] at hr
      exact ih.2 r (List.mem_of_mem_filter hr)

/-- A concrete 3072-dimensional record. -/
def rowC : EmbRow := ⟨1, "text", 0, List.replicate 3072 0, "text-embedding-3-large"⟩

/-- The database after persisting `rowC` into the empty database. -/
def db2 : DB := ⟨[], [rowC], []⟩

theorem insert_embedding_fixture :
    insert_embedding emptyDB "text-embedding-3-large" 1 0 "text"
      (List.replicate 3072 0) = some db2 := by
  unfold insert_embedding
  rw [if_pos (by decide : get_embedding_table "text-embedding-3-large"
        = some "embeddings_text_embedding_3"),
      if_pos (List.length_replicate 3072 (0:ℚ))]
  rfl

/-- Witness for C6: the record persisted by a concrete insert has the model's
declared dimensionality and partition. -/
theorem embedding_dimensionality_invariant_witness :
    rowC.model = "text-embedding-3-large" ∧ rowC.embedding.length = 3072 ∧
    tier_policy_dim rowC.model = some rowC.embedding.length := by
  have hreach : Reachable db2 :=
    Reachable.insert emptyDB db2 "text-embedding-3-large" 1 0 "text"
      (List.replicate 3072 0) Reachable.init insert_embedding_fixture
  exact (embedding_dimensionality_invariant db2 hreach).1 rowC
    (List.mem_singleton.mpr rfl)

theorem select_dissimilar_pairwise (sim : String → String → ℚ)
    (hsym : ∀ a b, sim a b = sim b a) (thr : ℚ) (limit : Option Nat) :
    ∀ cands kept : List RRes,
      List.Pairwise (fun a b => sim a.cand.text b.cand.text ≤ thr) kept.reverse →
      List.Pairwise (fun a b => sim a.cand.text b.cand.text ≤ thr)
        (select_dissimilar sim thr limit cands kept) := by
  intro cands
  induction cands with
  | nil =>
    intro kept hk
    simp only [select_dissimilar]
    exact hk
  | cons c rest ih =>
    intro kept hk
    simp only [select_dissimilar]
    split
    · exact hk
    · split
      · exact ih kept hk
      · next hany =>
        apply ih (c :: kept)
        rw [List.reverse_cons, List.pairwise_append]
        refine ⟨hk, List.pairwise_singleton _ _, ?_⟩
        intro a ha b hb
        rw [List.mem_singleton] at hb
        subst hb
        have ha2 : a ∈ kept := List.mem_reverse.mp ha
        have hnlt : ¬ (thr < sim b.cand.text a.cand.text) := by
          intro hlt
          exact hany (List.any_eq_true.mpr ⟨a, ha2, decide_eq_true hlt⟩)
        rw [hsym a.cand.text b.cand.text]
        exact not_lt.mp hnlt

/-- Claim C7: every pair of distinct results surviving `process_results` has
source-text similarity at most the configured diversity threshold, whose
default is 0.8; the similarity function is assumed symmetric. -/
theorem process_results_diversity (cross sim : String → String → ℚ)
    (dupThr : ℚ) (k : Nat) (query : String) (raw : List Ranked)
    (hsym : ∀ a b, sim a b = sim b a) :
    diversity_threshold = 4/5 ∧
    List.Pairwise
      (fun a b : RRes => sim a.cand.text b.cand.text ≤ diversity_threshold)
      (process_results cross sim dupThr k query raw) := by
  refine ⟨rfl, ?_⟩
  unfold process_results ensure_diversity
  exact select_dissimilar_pairwise sim hsym diversity_threshold (some k) _ []
    (by simp)

/-- Witness for C7 at a concrete constant similarity function. -/
theorem process_results_diversity_witness :
    List.Pairwise
      (fun a b : RRes =>
        (fun _ _ => (0:ℚ)) a.cand.text b.cand.text ≤ diversity_threshold)
      (process_results (fun _ _ => 0) (fun _ _ => 0) 0 1 "q" []) :=
  (process_results_diversity (fun _ _ => 0) (fun _ _ => 0) 0 1 "q" []
    (fun _ _ => rfl)).2

/-- Claim C8: every context passage produced by `retrieve` is paired with a
citation, and that citation is the provenance of a surviving search result:
its document identity, page and in-document position; no passage enters the
context without such a citation. -/
theorem retrieve_citations (vs : List ℚ → Nat → List (Cand × ℚ))
    (ks : List String → Nat → List (Cand × ℚ))
    (cross sim : String → String → ℚ) (dupThr : ℚ) (k : Nat)
    (e : List ℚ) (kw : List String) (query : String) (limit : Nat) :
    ∀ p ∈ retrieve vs ks cross sim dupThr k e kw query limit,
      ∃ r, r ∈ process_results cross sim dupThr k query
            (hybrid_search vs ks e kw limit) ∧
        p = format_citation r ∧
        p.text = passage_text r ∧
        p.citation.documentId = r.cand.ref.policyId ∧
        p.citation.position = r.cand.ref.chunkIndex ∧
        p.citation.page = r.cand.page ∧
        p.citation.chunkText = r.cand.text := by
  intro p hp
  unfold retrieve at hp
  obtain ⟨r, hr, rfl⟩ := List.mem_map.mp hp
  exact ⟨r, hr, rfl, rfl, rfl, rfl, rfl, rfl⟩

/-- The reranked result the pipeline produces from `r0`. -/
def rr0 : RRes :=
  { cand := candA
    combinedScore := hybrid_weight_vector * 0 + hybrid_weight_keyword * 0
    crossScore := 0
    extendedContext := none }

theorem retrieve_fixture_eval :
    retrieve vs0 ks0 (fun _ _ => 0) (fun _ _ => 0) 0 1 [] [] "q" 1
      = [format_citation rr0] := rfl

/-- Witness for C8: the single passage retrieved from a concrete pipeline
state is paired with the citation of its surviving result. -/
theorem retrieve_citations_witness :
    ∃ r, r ∈ process_results (fun _ _ => 0) (fun _ _ => 0) 0 1 "q"
          (hybrid_search vs0 ks0 [] [] 1) ∧
      format_citation rr0 = format_citation r ∧
      (format_citation rr0).text = passage_text r ∧
      (format_citation rr0).citation.documentId = r.cand.ref.policyId ∧
      (format_citation rr0).citation.position = r.cand.ref.chunkIndex ∧
      (format_citation rr0).citation.page = r.cand.page ∧
      (format_citation rr0).citation.chunkText = r.cand.text :=
  retrieve_citations vs0 ks0 (fun _ _ => 0) (fun _ _ => 0) 0 1 [] [] "q" 1
    (format_citation rr0)
    (by rw [retrieve_fixture_eval]; exact List.mem_singleton.mpr rfl)

namespace Chat

/-- Claim C9: for every completed search in the chat hook, the assistant
message appended last to the current session carries as its confidence the
relevance score of the first returned search result, and 0 when the result
list is empty. -/
theorem sendMessage_confidence (maxMessages : Nat)
    (api : SearchRequest → SearchResponse)
    (now procTime sid uid aid : Nat) (st : ChatState) (query : String)
    (pids : Option (List Nat))
    (hq : jsTrim query ≠ "") (hl : st.isLoading = false) :
    ∃ s, (sendMessage maxMessages api now procTime sid uid aid
        st query pids).1.currentSession = some s ∧
      ∃ m, s.messages.getLast? = some m ∧ m.type = MsgType.assistant ∧
        ((api ⟨query, pids, 10⟩).results = [] → m.confidence = some 0) ∧
        (∀ r rest, (api ⟨query, pids, 10⟩).results = r :: rest →
          m.confidence = some r.relevance_score) := by
  unfold sendMessage
  rw [if_neg (not_or.mpr ⟨hq, fun h => absurd (hl.symm.trans h) (by decide)⟩)]
  refine ⟨_, rfl, _, List.getLast?_concat _, rfl, fun hres => ?_,
    fun r rest hres => ?_⟩
  · simp only [hres]
  · simp only [hres]

/-- A concrete backend returning one result with relevance score 1. -/
def api0 : SearchRequest → SearchResponse :=
  fun _ => ⟨"answer", [⟨1, "policy", "company", 1, "match", none⟩]⟩

/-- A concrete idle chat state with no current session. -/
def st0 : ChatState := ⟨none, [], false, none⟩

/-- Witness for C9 at a concrete state and backend. -/
theorem sendMessage_confidence_witness :
    ∃ s, (sendMessage 100 api0 0 0 0 0 0 st0 "q" none).1.currentSession = some s ∧
      ∃ m, s.messages.getLast? = some m ∧ m.type = MsgType.assistant ∧
        ((api0 ⟨"q", none, 10⟩).results = [] → m.confidence = some 0) ∧
        (∀ r rest, (api0 ⟨"q", none, 10⟩).results = r :: rest →
          m.confidence = some r.relevance_score) :=
  sendMessage_confidence 100 api0 0 0 0 0 0 st0 "q" none (by decide) rfl

/-- Claim C10: a blank (empty or whitespace-only) query, or a call made while
a previous send is still in flight, makes `sendMessage` return without
issuing any search request and without changing the state — in particular the
current session's message list and title are unchanged. -/
theorem sendMessage_guard (maxMessages : Nat)
    (api : SearchRequest → SearchResponse)
    (now procTime sid uid aid : Nat) (st : ChatState) (query : String)
    (pids : Option (List Nat))
    (h : jsTrim query = "" ∨ st.isLoading = true) :
    sendMessage maxMessages api now procTime sid uid aid st query pids
      = (st, []) := by
  unfold sendMessage
  rw [if_pos h]

/-- Witness for C10: a whitespace-only query and an in-flight state each
leave the state untouched and issue no request. -/
theorem sendMessage_guard_witness :
    sendMessage 100 api0 0 0 0 0 0 st0 "   " none = (st0, []) ∧
    sendMessage 100 api0 0 0 0 0 0 ⟨none, [], true, none⟩ "hello" none
      = (⟨none, [], true, none⟩, []) :=
  ⟨sendMessage_guard 100 api0 0 0 0 0 0 st0 "   " none (Or.inl (by decide)),
   sendMessage_guard 100 api0 0 0 0 0 0 ⟨none, [], true, none⟩ "hello" none
     (Or.inr rfl)⟩

end Chat
